import Mathlib

/-!
Verification development for the English-Buddy AI conversation
orchestration core.  The Python sources (app.py, modules/evaluator.py,
modules/llm_interface.py) are shallowly embedded below: pure functions
become Lean functions, the process-wide mutable session state becomes an
explicit `AppState` threaded through step functions, and the external
collaborators (speech-to-text, the LLM responder, text-to-speech) become
oracle parameters.  Python strings are modelled as Lean `String`
(operating on the underlying `List Char`), Python dicts holding task
records as insertion-ordered association lists, and Python float
arithmetic in the evaluator as exact rational arithmetic with an explicit
round-to-one-decimal function.
-/

set_option maxRecDepth 100000

namespace EnglishBuddy

/-! ## Data model

Mirrors the dictionaries used by app.py: conversation turns are
`{"role": ..., "content": ...}`, task records are
`{"description": ..., "status": ..., "response": ...}` keyed by strings
`"task_N"` in the dict `user_profile["task_responses"]`. -/

/-- One entry of `conversation_history`: a dict with keys role and content. -/
structure Turn where
  role : String
  content : String
deriving DecidableEq, Repr

/-- One value of the `task_responses` dict of app.py. The status field holds
the literal strings "assigned" or "completed" as in the source; `response`
is `none` for Python None. -/
structure Task where
  description : String
  status : String
  response : Option String
deriving DecidableEq, Repr

/-- The `user_profile` global of app.py.  The `task_responses` dict is
modelled as an insertion-ordered association list, matching the iteration
order of a Python dict. -/
structure UserProfile where
  level : Option String
  transcriptions : List String
  task_responses : List (String × Task)
deriving DecidableEq, Repr

/-- The two module-level globals of app.py bundled as one state. -/
structure AppState where
  conversation_history : List Turn
  user_profile : UserProfile
deriving DecidableEq, Repr

/-- The state of the globals right after module import (app.py lines 19-24). -/
def initial_state : AppState :=
  { conversation_history := []
    user_profile := { level := none, transcriptions := [], task_responses := [] } }

/-! ## Python string primitives

Models of the Python operations used by app.py: the substring test
`sep in s`, the split `s.split(sep)` (for a non-empty separator) and
`s.strip()`.  Everything operates on the underlying character list. -/

/-- Character class stripped by Python str.strip (the ASCII whitespace
characters; the model ignores the more exotic Unicode space characters). -/
def isPySpace (c : Char) : Bool :=
  c == ' ' || c == '\t' || c == '\n' || c == '\r' || c == '\x0b' || c == '\x0c'

/-- Python str.strip(): remove leading and trailing whitespace. -/
def pyStrip (l : List Char) : List Char :=
  ((l.dropWhile isPySpace).reverse.dropWhile isPySpace).reverse

/-- Locate the first occurrence of `sep` in `l`: returns the part strictly
before the occurrence and the part strictly after it.  This is the
primitive underlying both the Python substring test and str.split. -/
def findSplit (sep : List Char) : List Char → Option (List Char × List Char)
  | [] => if sep.isPrefixOf ([] : List Char) then some ([], []) else none
  | c :: t =>
    if sep.isPrefixOf (c :: t) then some ([], (c :: t).drop sep.length)
    else (findSplit sep t).map (fun p => (c :: p.1, p.2))

/-- Python `sep in s`: substring membership. -/
def pyContains (sep l : List Char) : Bool :=
  (findSplit sep l).isSome

/-- Fuel-driven worker for `pySplit`; the fuel bounds the number of
separator occurrences, so `l.length` is always enough. -/
def pySplitAux (sep : List Char) : Nat → List Char → List (List Char)
  | 0, l => [l]
  | fuel + 1, l =>
    match findSplit sep l with
    | none => [l]
    | some (a, b) => a :: pySplitAux sep fuel b

/-- Python s.split(sep) for a non-empty separator: the fields of `l`
between consecutive occurrences of `sep`. -/
def pySplit (sep l : List Char) : List (List Char) :=
  pySplitAux sep l.length l

/-- The fixed sentinel token that marks an embedded task directive in
responder output (the string "TASK:" of app.py). -/
def sentinel : List Char := "TASK:".data

/-! ## Prompt composer (app.py generate_system_prompt) -/

/-- Renders the Python value `user_profile["level"]` the way an f-string
does: None becomes the text "None". -/
def levelStr : Option String → String
  | some l => l
  | none => "None"

/-- The prompt of the is_task_response branch of generate_system_prompt
(app.py lines 151-154). -/
def task_feedback_prompt (level : String) : String :=
  "You are an English conversation practice assistant for " ++ level ++
  " level English learners.\n        The user just completed a speaking task you assigned. Give positive feedback first, then 1-2 specific improvement suggestions.\n        Keep your response friendly, encouraging and concise. Don\x27t assign a new task yet."

/-- The task-injection directive inserted into the base prompt when a task
should be assigned (app.py lines 167-172). -/
def assign_task_directive : String :=
  "\n        In your response, include a speaking task for the user by adding \"TASK:\" followed by the task description.\n        For Beginner: Simple tasks like \"Describe your family\" or \"Talk about your daily routine\"\n        For Intermediate: Moderate tasks like \"Explain the plot of your favorite movie\" or \"Describe a problem in your city\"\n        For Advanced: Complex tasks like \"Argue for or against remote work\" or \"Discuss the impact of AI on society\"\n        "

/-- The part of the base prompt before the interpolated directive
(app.py lines 174-182 up to the directive placeholder). -/
def base_prompt_pre (level : String) : String :=
  "You are an English conversation practice assistant for " ++ level ++
  " level English learners.\n    Adjust your vocabulary and sentence complexity to match their " ++ level ++
  " level.\n    \n    Beginner: Use simple vocabulary, short sentences, and basic grammar.\n    Intermediate: Use moderate vocabulary, varied sentence structures, and introduce some idioms.\n    Advanced: Use sophisticated vocabulary, complex sentences, idioms, and discuss abstract topics.\n    \n    Keep the conversation natural, engaging and flowing. Ask follow-up questions to encourage the user to speak more.\n    "

/-- The part of the base prompt after the interpolated directive
(app.py lines 182-188). -/
def base_prompt_post : String :=
  "\n    \n    Important:\n    - Keep your responses concise (3-5 sentences)\n    - Don\x27t summarize the conversation\n    - Don\x27t mention that you\x27re an AI unless the user asks\n    - Focus on having a natural conversation"

/-- app.py generate_system_prompt.  The Python function reads the globals
conversation_history and user_profile["task_responses"]; here they are
explicit parameters.  The directive is inserted exactly when the dialogue
already holds at least 4 turns and fewer than 2 tasks were ever created
(app.py line 163). -/
def generate_system_prompt (level : String) (is_task_response : Bool)
    (conversation_history : List Turn) (task_responses : List (String × Task)) : String :=
  if is_task_response then task_feedback_prompt level
  else
    let should_assign_task := conversation_history.length ≥ 4 && task_responses.length < 2
    let directive := if should_assign_task then assign_task_directive else ""
    base_prompt_pre level ++ directive ++ base_prompt_post

/-! ## Dialogue turn router (app.py process_audio) -/

/-- The loop of app.py lines 93-99: walk the task dict in insertion order,
set the response of the first task whose status is "assigned", mark it
"completed", and report whether one was found. -/
def completeFirstAssigned (resp : String) :
    List (String × Task) → List (String × Task) × Bool
  | [] => ([], false)
  | (k, t) :: rest =>
    if t.status == "assigned" then
      ((k, { t with response := some resp, status := "completed" }) :: rest, true)
    else
      let r := completeFirstAssigned resp rest
      ((k, t) :: r.1, r.2)

/-- The post-response extraction of app.py lines 106-109: when the
responder output contains the sentinel, the recorded reply is the stripped
field before the first occurrence and the task description is the stripped
second field of the split; otherwise the output passes through untouched. -/
def process_response (response : String) : String × Option String :=
  if pyContains sentinel response.data then
    let parts := pySplit sentinel response.data
    (⟨pyStrip (parts.getD 0 [])⟩, some ⟨pyStrip (parts.getD 1 [])⟩)
  else
    (response, none)

/-- Everything process_audio reports back (plus the composed system prompt
and raw responder output, exposed for the theorems below). -/
structure ProcessOutput where
  transcription : String
  response : String
  is_task_response : Bool
  system_prompt : String
  llm_response : String
deriving Repr

/-- app.py process_audio for one successfully transcribed utterance.  The
transcriber result is the parameter `transcription`; the responder is the
oracle `llm`, applied to the composed system prompt and the dialogue
including the new user turn, exactly as in the source.  Steps, in source
order: append the transcription to the audit list and to the dialogue,
complete the first assigned task if any, compose the system prompt, call
the responder, extract an embedded task directive, register the new task
under the key "task_" ++ (dict size + 1), and append the assistant turn. -/
def process_audio (transcription : String) (llm : String → List Turn → String)
    (s : AppState) : AppState × ProcessOutput :=
  let profile1 := { s.user_profile with
    transcriptions := s.user_profile.transcriptions ++ [transcription] }
  let history1 := s.conversation_history ++ [{ role := "user", content := transcription }]
  let routed := completeFirstAssigned transcription profile1.task_responses
  let tasks2 := routed.1
  let is_task_response := routed.2
  let system_prompt := generate_system_prompt (levelStr profile1.level) is_task_response history1 tasks2
  let response := llm system_prompt history1
  let extracted := process_response response
  let reply := extracted.1
  let tasks3 :=
    match extracted.2 with
    | some d =>
      tasks2 ++ [("task_" ++ toString (tasks2.length + 1),
                  { description := d, status := "assigned", response := none })]
    | none => tasks2
  let history2 := history1 ++ [{ role := "assistant", content := reply }]
  ({ conversation_history := history2
     user_profile := { profile1 with task_responses := tasks3 } },
   { transcription := transcription, response := reply,
     is_task_response := is_task_response, system_prompt := system_prompt,
     llm_response := response })

/-- The greeting prompt of app.py line 52. -/
def initial_greeting_prompt (level : String) : String :=
  "You are an English conversation practice assistant for " ++ level ++
  " level English learners. Start with a friendly greeting and ask a simple question to begin the conversation. Your Name is Sam"

/-- app.py set_level.  The level value is validated first; an invalid
level returns the 400 error without touching the state.  A valid level
resets both globals, asks the responder for a greeting and records it as
the first (assistant) turn. -/
def set_level (llm : String → List Turn → String) (level : String)
    (s : AppState) : Except String String × AppState :=
  if level == "Beginner" || level == "Intermediate" || level == "Advanced" then
    let response := llm (initial_greeting_prompt level) []
    (Except.ok response,
     { conversation_history := [{ role := "assistant", content := response }]
       user_profile := { level := some level, transcriptions := [], task_responses := [] } })
  else
    (Except.error "Invalid level", s)

/-- States of the session store reachable from import time by any sequence
of set_level and process_audio requests, with arbitrary transcriber and
responder behaviour. -/
inductive Reachable : AppState → Prop
  | init : Reachable initial_state
  | step_set_level (llm : String → List Turn → String) (level : String) {s : AppState} :
      Reachable s → Reachable (set_level llm level s).2
  | step_process (transcription : String) (llm : String → List Turn → String) {s : AppState} :
      Reachable s → Reachable (process_audio transcription llm s).1

/-! ## Responder wrapper (modules/llm_interface.py get_llm_response)

The Groq API call is an oracle `attemptOutcome : Nat → Except String String`
giving, for each attempt index, either the generated text or the message of
the raised exception.  Real time is not modelled; instead the durations
passed to time.sleep are collected in a list. -/

/-- The fixed apologetic fallback returned by the outer exception handler
(llm_interface.py line 60). -/
def fallback_response : String :=
  "I\x27m sorry, I\x27m having trouble generating a response right now. Could you please repeat what you said?"

/-- The retry loop of llm_interface.py lines 33-55, written as recursion on
the number of retries still allowed (max_retries - 1 - attempt in the
source).  A failing attempt with retries left records a sleep of
2 ^ attempt seconds and moves on; a failing last attempt re-raises. -/
def run_attempts (attemptOutcome : Nat → Except String String) :
    Nat → Nat → Except String String × List Nat
  | attempt, 0 => (attemptOutcome attempt, [])
  | attempt, remaining + 1 =>
    match attemptOutcome attempt with
    | Except.ok t => (Except.ok t, [])
    | Except.error _ =>
      let r := run_attempts attemptOutcome (attempt + 1) remaining
      (r.1, 2 ^ attempt :: r.2)

/-- llm_interface.py get_llm_response: run up to max_retries = 3 attempts
starting at attempt 0; the outer handler converts any escaped exception
into the fallback string, so the caller always receives plain text.  The
second component lists the sleep durations performed. -/
def get_llm_response (attemptOutcome : Nat → Except String String) : String × List Nat :=
  match run_attempts attemptOutcome 0 (3 - 1) with
  | (Except.ok t, sleeps) => (t, sleeps)
  | (Except.error _, sleeps) => (fallback_response, sleeps)

/-! ## Evaluation reducer (modules/evaluator.py)

The tokenizer re.findall(r"\b\w+\b", text.lower()) returns the maximal
runs of word characters of the lowercased text; the eight mistake regexes
are interpreted by a small backtracking matcher over character lists. -/

/-- Python regex \w for the ASCII range (the model ignores non-ASCII word
characters). -/
def isWordChar (c : Char) : Bool :=
  c.isAlpha || c.isDigit || c == '_'

/-- ASCII lowercase letter, the class [a-z] of the mistake patterns. -/
def isLowerAZ (c : Char) : Bool :=
  97 ≤ c.toNat && c.toNat ≤ 122

/-- Worker for `wordRuns`: `acc` holds the reversed current run. -/
def wordRunsAux : List Char → List Char → List (List Char)
  | acc, [] => if acc.isEmpty then [] else [acc.reverse]
  | acc, c :: t =>
    if isWordChar c then wordRunsAux (c :: acc) t
    else if acc.isEmpty then wordRunsAux [] t
    else acc.reverse :: wordRunsAux [] t

/-- The maximal runs of word characters of `l`: the token list produced by
re.findall(r"\b\w+\b", ...). -/
def wordRuns (l : List Char) : List (List Char) :=
  wordRunsAux [] l

/-- evaluator.py count_words: token count of the lowercased text. -/
def count_words (text : String) : Nat :=
  (wordRuns (text.data.map Char.toLower)).length

/-- evaluator.py count_unique_words: distinct token count of the
lowercased text. -/
def count_unique_words (text : String) : Nat :=
  (wordRuns (text.data.map Char.toLower)).dedup.length

/-- One building block of a mistake regex: a literal, an alternation of
literals, a one-or-more character class, a single-character class, or the
zero-width word boundary \b. -/
inductive Piece
  | lit (s : List Char)
  | alts (ss : List (List Char))
  | plusCls (p : Char → Bool)
  | oneCls (p : Char → Bool)
  | wordB

/-- A matcher state: the previously consumed character (none at the very
start of the text) and the remaining text. -/
structure MState where
  prev : Option Char
  rest : List Char
deriving DecidableEq

/-- Word-character test lifted to the optional previous character. -/
def isWordOpt : Option Char → Bool
  | none => false
  | some c => isWordChar c

/-- Match a literal at the current position. -/
def litOutcome (s : List Char) (st : MState) : List MState :=
  if s.isPrefixOf st.rest then
    [{ prev := if s.isEmpty then st.prev else s.getLast?, rest := st.rest.drop s.length }]
  else []

/-- All ways to consume one or more leading characters satisfying `p`. -/
def plusOutcomes (p : Char → Bool) : List Char → List MState
  | [] => []
  | c :: t => if p c then { prev := some c, rest := t } :: plusOutcomes p t else []

/-- All successor states after matching one piece. -/
def matchPiece : Piece → MState → List MState
  | Piece.lit s, st => litOutcome s st
  | Piece.alts ss, st => (ss.map (fun s => litOutcome s st)).flatten
  | Piece.plusCls p, st => plusOutcomes p st.rest
  | Piece.oneCls p, st =>
    match st.rest with
    | [] => []
    | c :: t => if p c then [{ prev := some c, rest := t }] else []
  | Piece.wordB, st =>
    if isWordOpt st.prev != isWordOpt st.rest.head? then [st] else []

/-- All states reachable by matching a whole sequence of pieces from one
starting state (the pattern matches at that position iff the result is
non-empty). -/
def matchSeq (ps : List Piece) (st : MState) : List MState :=
  ps.foldl (fun sts p => (sts.map (matchPiece p)).flatten) [st]

/-- Scan every start position of the text for a match, threading the
previously consumed character for the word-boundary test. -/
def searchAt (ps : List Piece) : Option Char → List Char → Bool
  | prev, [] => !(matchSeq ps { prev := prev, rest := [] }).isEmpty
  | prev, c :: t =>
    !(matchSeq ps { prev := prev, rest := c :: t }).isEmpty || searchAt ps (some c) t

/-- Python re.search with re.IGNORECASE, modelled by lowercasing the text
first (every literal and class of the eight patterns is closed under this
for ASCII input). -/
def re_search_ic (ps : List Piece) (text : List Char) : Bool :=
  searchAt ps none (text.map Char.toLower)

/-- Pattern of evaluator.py line 77, the seventh entry of the list:
backslash-b (look|looks|looked) backslash-s+ forward backslash-s+ to
backslash-s+ ([a-z]+ing). -/
def gerund_pattern : List Piece :=
  [Piece.wordB, Piece.alts ["look".data, "looks".data, "looked".data],
   Piece.plusCls isPySpace, Piece.lit "forward".data,
   Piece.plusCls isPySpace, Piece.lit "to".data,
   Piece.plusCls isPySpace, Piece.plusCls isLowerAZ, Piece.lit "ing".data]

/-- Description paired with the seventh pattern in evaluator.py. -/
def gerund_description : String :=
  "Correct use of \x27look forward to\x27 + gerund"

/-- The fixed pattern list of evaluator.py lines 70-79, in source order. -/
def mistake_patterns : List (List Piece × String) :=
  [([Piece.wordB, Piece.lit "i am ".data, Piece.alts ["agree".data, "disagree".data]],
    "Using \x27I am agree\x27 instead of \x27I agree\x27"),
   ([Piece.wordB, Piece.lit "the".data, Piece.plusCls isPySpace,
     Piece.plusCls isLowerAZ, Piece.lit "ing".data, Piece.wordB],
    "Potentially incorrect use of \x27the\x27 with gerund"),
   ([Piece.wordB, Piece.alts ["make".data, "makes".data, "made".data],
     Piece.plusCls isPySpace, Piece.lit "fun".data, Piece.wordB],
    "Using \x27make fun\x27 instead of \x27have fun\x27"),
   ([Piece.wordB, Piece.alts ["is".data, "are".data, "was".data, "were".data],
     Piece.plusCls isPySpace, Piece.lit "consist".data],
    "Using \x27is consist of\x27 instead of \x27consists of\x27"),
   ([Piece.wordB, Piece.lit "discuss".data, Piece.plusCls isPySpace,
     Piece.lit "about".data, Piece.wordB],
    "Using \x27discuss about\x27 instead of just \x27discuss\x27"),
   ([Piece.wordB, Piece.lit "advice".data, Piece.plusCls isPySpace,
     Piece.alts ["to".data, "for".data], Piece.plusCls isPySpace,
     Piece.plusCls isWordChar, Piece.wordB],
    "Using \x27advice to\x27 instead of \x27advise\x27"),
   (gerund_pattern, gerund_description),
   ([Piece.wordB, Piece.alts ["look".data, "looks".data, "looked".data],
     Piece.plusCls isPySpace, Piece.lit "forward".data,
     Piece.plusCls isPySpace, Piece.lit "to".data,
     Piece.plusCls isPySpace, Piece.plusCls isWordChar,
     Piece.oneCls (fun c => !(c == 'i' || c == 'n' || c == 'g' || isPySpace c)),
     Piece.wordB],
    "Incorrect use of \x27look forward to\x27 without gerund")]

/-- A faithful model of the Python expression list(set(xs)): any function
returning the distinct elements of its input in some order.  CPython
leaves the order unspecified (string hashing is even randomized per
process), so the model quantifies over it. -/
def SetListModel (f : List String → List String) : Prop :=
  ∀ l : List String, List.Perm (f l) l.dedup

/-- One concrete choice of set-to-list order (first occurrences first),
used where a fixed representative is needed. -/
def pySetList (xs : List String) : List String :=
  xs.dedup

/-- evaluator.py extract_common_mistakes: collect the descriptions of the
patterns that match somewhere in the text (case-insensitively), pass the
list through list(set(...)) -- the parameter `setList` -- and keep at most
the first 3. -/
def extract_common_mistakes (setList : List String → List String) (text : String) : List String :=
  let mistakes := (mistake_patterns.filter (fun pr => re_search_ic pr.1 text.data)).map (fun pr => pr.2)
  (setList mistakes).take 3

/-- Round to one decimal place: Python round(x, 1) on exact rationals.
CPython uses round-half-to-even on binary floats; the model rounds half
up, which agrees everywhere the tie case does not arise. -/
def pyRound1 (q : ℚ) : ℚ :=
  (Int.floor (q * 10 + 1 / 2) : ℚ) / 10

/-- The report dict assembled by evaluator.py lines 41-48. -/
structure Report where
  level : Option String
  word_count : Nat
  avg_words_per_message : ℚ
  vocabulary_richness : ℚ
  common_mistakes : List String
  detailed_evaluation : String
deriving Repr

/-- The narrative-evaluation prompt built by evaluator.py
get_detailed_evaluation (lines 100-117). -/
def evaluation_prompt (level : String) (user_messages : List String) : String :=
  "You are an expert English language teacher evaluating a " ++ level ++
  " level English learner.\n    \n    Here are all the learner\x27s spoken responses (transcribed):\n    " ++
  String.intercalate "\n" (user_messages.map (fun msg => "- " ++ msg)) ++
  "\n    \n    Please provide a detailed but concise evaluation covering:\n    1. Fluency (smoothness of speech, hesitations)\n    2. Pronunciation (any noticeable patterns or issues)\n    3. Grammar usage (strengths and weaknesses)\n    4. Vocabulary richness (variety and appropriateness)\n    5. Three specific suggestions for improvement\n    \n    Keep your evaluation constructive, encouraging, and appropriate for a " ++
  level ++
  " level learner.\n    Format your response as a structured evaluation without mentioning that you\x27re an AI.\n    Limit your response to approximately 300 words.\n    "

/-- evaluator.py evaluate_conversation.  The guard on an empty
transcription list produces the recoverable error dict, modelled as
Except.error; otherwise the deterministic metrics are computed over the
user turns of the history joined with single spaces, and the narrative is
delegated to the responder oracle `llm`. -/
def evaluate_conversation (llm : String → String) (user_profile : UserProfile)
    (conversation_history : List Turn) : Except String Report :=
  if user_profile.transcriptions.isEmpty then
    Except.error "No speech detected to evaluate"
  else
    let user_messages := (conversation_history.filter (fun msg => msg.role == "user")).map (fun msg => msg.content)
    let joined := String.intercalate " " user_messages
    let word_count := count_words joined
    let avg_words_per_message : ℚ :=
      if user_messages.isEmpty then 0 else (word_count : ℚ) / user_messages.length
    let unique_words := count_unique_words joined
    let vocabulary_richness : ℚ :=
      if word_count > 0 then (unique_words : ℚ) / word_count else 0
    let common_mistakes := extract_common_mistakes pySetList joined
    let llm_evaluation := llm (evaluation_prompt (levelStr user_profile.level) user_messages)
    Except.ok
      { level := user_profile.level
        word_count := word_count
        avg_words_per_message := pyRound1 avg_words_per_message
        vocabulary_richness := pyRound1 (vocabulary_richness * 100)
        common_mistakes := common_mistakes
        detailed_evaluation := llm_evaluation }

/-- The user-turn texts of a dialogue, in order (the list comprehension of
evaluator.py line 24). -/
def userTexts (history : List Turn) : List String :=
  (history.filter (fun msg => msg.role == "user")).map (fun msg => msg.content)

/-- Number of task records whose status is "assigned". -/
def countAssigned (ts : List (String × Task)) : Nat :=
  (ts.filter (fun p => p.2.status == "assigned")).length

/-- Vocabulary richness written from the words of the spec, for comparison
with the evaluator: the number of distinct case-insensitive tokens of the
concatenated user-turn text, divided by the word count, times 100, rounded
to 1 decimal place, and 0 if the word count is 0. -/
def vocabulary_richness_spec (userMessages : List String) : ℚ :=
  let toks := wordRuns ((String.intercalate " " userMessages).data.map Char.toLower)
  if toks.length = 0 then 0
  else pyRound1 ((toks.dedup.length : ℚ) / toks.length * 100)

/-! ## Helper lemmas: the split primitive -/

/-- A successful findSplit is a decomposition of the input. -/
theorem findSplit_eq_append {sep l a b : List Char}
    (h : findSplit sep l = some (a, b)) : l = a ++ sep ++ b := by
  induction l generalizing a b with
  | nil =>
    simp only [findSplit] at h
    split at h
    · rename_i hp
      rw [List.isPrefixOf_iff_prefix] at hp
      obtain ⟨u, hu⟩ := hp
      simp only [Option.some.injEq, Prod.mk.injEq] at h
      obtain ⟨rfl, rfl⟩ := h
      simp at hu ⊢
      simp [hu.1]
    · exact absurd h (by simp)
  | cons c t ih =>
    simp only [findSplit] at h
    split at h
    · rename_i hp
      rw [List.isPrefixOf_iff_prefix] at hp
      obtain ⟨u, hu⟩ := hp
      simp only [Option.some.injEq, Prod.mk.injEq] at h
      obtain ⟨rfl, rfl⟩ := h
      conv_lhs => rw [← hu]
      simp [← hu]
    · simp only [Option.map_eq_some'] at h
      obtain ⟨⟨a1, b1⟩, hfs, heq⟩ := h
      simp only [Prod.mk.injEq] at heq
      obtain ⟨rfl, rfl⟩ := heq
      simp [ih hfs]

/-- findSplit finds the first occurrence: no decomposition has a shorter
part before the separator. -/
theorem findSplit_min {sep l a b : List Char}
    (h : findSplit sep l = some (a, b)) :
    ∀ a' b', l = a' ++ sep ++ b' → a.length ≤ a'.length := by
  induction l generalizing a b with
  | nil =>
    intro a' b' _
    simp only [findSplit] at h
    split at h
    · simp only [Option.some.injEq, Prod.mk.injEq] at h
      obtain ⟨rfl, rfl⟩ := h
      simp
    · exact absurd h (by simp)
  | cons c t ih =>
    intro a' b' hd
    simp only [findSplit] at h
    split at h
    · rename_i hp
      simp only [Option.some.injEq, Prod.mk.injEq] at h
      obtain ⟨rfl, rfl⟩ := h
      simp
    · rename_i hp
      simp only [Option.map_eq_some'] at h
      obtain ⟨⟨a1, b1⟩, hfs, heq⟩ := h
      simp only [Prod.mk.injEq] at heq
      obtain ⟨rfl, rfl⟩ := heq
      match a', hd with
      | [], hd =>
        exfalso
        apply hp
        rw [List.isPrefixOf_iff_prefix]
        exact ⟨b', by simpa using hd.symm⟩
      | c' :: a1', hd =>
        simp only [List.cons_append, List.cons.injEq] at hd
        obtain ⟨rfl, ht⟩ := hd
        simpa using ih hfs a1' b' ht

/-- A failing findSplit means the separator occurs nowhere. -/
theorem findSplit_none {sep l : List Char}
    (h : findSplit sep l = none) : ∀ a b, l ≠ a ++ sep ++ b := by
  induction l with
  | nil =>
    intro a b hd
    simp only [findSplit] at h
    split at h
    · exact absurd h (by simp)
    · rename_i hp
      apply hp
      rw [List.isPrefixOf_iff_prefix]
      have : a = [] ∧ sep ++ b = [] := by simpa using hd.symm
      simp [List.append_eq_nil] at this
      simp [this.2.1]
  | cons c t ih =>
    intro a b hd
    simp only [findSplit] at h
    split at h
    · exact absurd h (by simp)
    · rename_i hp
      match a, hd with
      | [], hd =>
        apply hp
        rw [List.isPrefixOf_iff_prefix]
        exact ⟨b, by simpa using hd.symm⟩
      | c' :: a1, hd =>
        simp only [List.cons_append, List.cons.injEq] at hd
        obtain ⟨rfl, ht⟩ := hd
        simp only [Option.map_eq_none'] at h
        exact ih h a1 b ht

/-- The Python substring test holds exactly when a decomposition exists. -/
theorem pyContains_iff {sep l : List Char} :
    pyContains sep l = true ↔ ∃ a b, l = a ++ sep ++ b := by
  unfold pyContains
  cases hfs : findSplit sep l with
  | none =>
    simp only [Option.isSome_none, Bool.false_eq_true, false_iff]
    rintro ⟨a, b, rfl⟩
    exact findSplit_none hfs a b rfl
  | some p =>
    simp only [Option.isSome_some, true_iff]
    exact ⟨p.1, p.2, findSplit_eq_append (by simpa using hfs)⟩

/-- findSplit on the empty list fails for a non-empty separator. -/
theorem findSplit_nil {sep : List Char} (h : sep ≠ []) :
    findSplit sep [] = none := by
  match sep, h with
  | c :: s, _ => simp [findSplit, List.isPrefixOf]

/-- The fuel argument of pySplitAux is irrelevant once it reaches the
length of the input. -/
theorem pySplitAux_fuel {sep : List Char} (hsep : sep ≠ []) :
    ∀ f1 f2 l, l.length ≤ f1 → l.length ≤ f2 →
      pySplitAux sep f1 l = pySplitAux sep f2 l := by
  intro f1
  induction f1 with
  | zero =>
    intro f2 l h1 h2
    have : l = [] := by
      cases l with
      | nil => rfl
      | cons c t => simp at h1
    subst this
    cases f2 with
    | zero => rfl
    | succ n => simp [pySplitAux, findSplit_nil hsep]
  | succ m ih =>
    intro f2 l h1 h2
    cases f2 with
    | zero =>
      have : l = [] := by
        cases l with
        | nil => rfl
        | cons c t => simp at h2
      subst this
      simp [pySplitAux, findSplit_nil hsep]
    | succ n =>
      simp only [pySplitAux]
      cases hfs : findSplit sep l with
      | none => rfl
      | some p =>
        obtain ⟨a, b⟩ := p
        have hd := findSplit_eq_append hfs
        have hblen : b.length < l.length := by
          have := List.length_pos.mpr hsep
          rw [hd]
          simp only [List.length_append]
          omega
        simp only []
        rw [ih n b (by omega) (by omega)]

/-- Unfolding equation of pySplit at a separator occurrence. -/
theorem pySplit_cons {sep l a b : List Char} (hsep : sep ≠ [])
    (h : findSplit sep l = some (a, b)) :
    pySplit sep l = a :: pySplit sep b := by
  have hd := findSplit_eq_append h
  have hsl : 0 < sep.length := List.length_pos.mpr hsep
  have hlen : l.length = a.length + sep.length + b.length := by
    rw [hd]; simp only [List.length_append]
  obtain ⟨k, hk⟩ : ∃ k, l.length = k + 1 := ⟨l.length - 1, by omega⟩
  unfold pySplit
  rw [hk]
  simp only [pySplitAux, h]
  rw [pySplitAux_fuel hsep k b.length b (by omega) (le_refl _)]

/-- Unfolding equation of pySplit when the separator does not occur. -/
theorem pySplit_single {sep l : List Char}
    (h : findSplit sep l = none) : pySplit sep l = [l] := by
  unfold pySplit
  cases hl : l.length with
  | zero => simp [pySplitAux]
  | succ k => simp [pySplitAux, h]

/-! ## Helper lemmas: the task-completion loop -/

/-- Completing a task never changes the keys of the dict. -/
theorem cfa_map_fst (resp : String) (ts : List (String × Task)) :
    ((completeFirstAssigned resp ts).1).map Prod.fst = ts.map Prod.fst := by
  induction ts with
  | nil => rfl
  | cons p rest ih =>
    obtain ⟨k, t⟩ := p
    simp only [completeFirstAssigned]
    split
    · simp
    · simpa using ih

/-- Completing a task never changes the size of the dict. -/
theorem cfa_length (resp : String) (ts : List (String × Task)) :
    (completeFirstAssigned resp ts).1.length = ts.length := by
  have := congrArg List.length (cfa_map_fst resp ts)
  simpa using this

/-- The loop is the identity when no task is assigned. -/
theorem cfa_none (resp : String) (ts : List (String × Task))
    (h : ∀ p ∈ ts, p.2.status ≠ "assigned") :
    completeFirstAssigned resp ts = (ts, false) := by
  induction ts with
  | nil => rfl
  | cons p rest ih =>
    obtain ⟨k, t⟩ := p
    have hk : ¬ t.status == "assigned" := by
      simpa using h (k, t) (by simp)
    simp only [completeFirstAssigned, if_neg hk]
    rw [ih (fun q hq => h q (List.mem_cons_of_mem _ hq))]

/-- When an assigned task exists, the loop completes exactly the first
one, recording the utterance as its response. -/
theorem cfa_found (resp : String) (ts : List (String × Task))
    (h : ∃ p ∈ ts, p.2.status = "assigned") :
    ∃ pre k t post,
      ts = pre ++ (k, t) :: post
      ∧ (∀ q ∈ pre, q.2.status ≠ "assigned")
      ∧ t.status = "assigned"
      ∧ (completeFirstAssigned resp ts).1 =
          pre ++ (k, { description := t.description, status := "completed",
                       response := some resp }) :: post
      ∧ (completeFirstAssigned resp ts).2 = true := by
  induction ts with
  | nil => simp at h
  | cons p rest ih =>
    obtain ⟨k, t⟩ := p
    by_cases hk : t.status = "assigned"
    · refine ⟨[], k, t, rest, by simp, by simp, hk, ?_, ?_⟩
      · simp [completeFirstAssigned, hk]
      · simp [completeFirstAssigned, hk]
    · have hrest : ∃ p ∈ rest, p.2.status = "assigned" := by
        obtain ⟨q, hq, hs⟩ := h
        rcases List.mem_cons.mp hq with rfl | hq'
        · exact absurd hs hk
        · exact ⟨q, hq', hs⟩
      obtain ⟨pre, k', t', post, hts, hpre, ht', hres, hflag⟩ := ih hrest
      refine ⟨(k, t) :: pre, k', t', post, by simp [hts], ?_, ht', ?_, ?_⟩
      · intro q hq
        rcases List.mem_cons.mp hq with rfl | hq'
        · exact hk
        · exact hpre q hq'
      · simp [completeFirstAssigned, hk, hres]
      · simp [completeFirstAssigned, hk, hflag]

/-- countAssigned at a cons cell. -/
theorem countAssigned_cons (k : String) (t : Task) (rest : List (String × Task)) :
    countAssigned ((k, t) :: rest) =
      (if t.status == "assigned" then 1 else 0) + countAssigned rest := by
  simp only [countAssigned, List.filter_cons]
  split <;> simp [Nat.add_comm]

/-- A completed record does not count as assigned, so after the loop runs
on a dict with at most one assigned task none remains assigned. -/
theorem cfa_countAssigned (resp : String) (ts : List (String × Task))
    (h : countAssigned ts ≤ 1) :
    countAssigned (completeFirstAssigned resp ts).1 = 0 := by
  induction ts with
  | nil => rfl
  | cons p rest ih =>
    obtain ⟨k, t⟩ := p
    rw [countAssigned_cons] at h
    by_cases hk : t.status = "assigned"
    · have hrest0 : countAssigned rest = 0 := by
        rw [hk] at h
        simp at h
        omega
      simp only [completeFirstAssigned]
      rw [if_pos (by simp [hk])]
      rw [countAssigned_cons]
      simpa using hrest0
    · have h' : countAssigned rest ≤ 1 := by
        split at h <;> omega
      have hres := ih h'
      simp only [completeFirstAssigned]
      rw [if_neg (by simpa using hk)]
      rw [countAssigned_cons]
      rw [if_neg (by simpa using hk)]
      simpa using hres

/-- Appending one record changes countAssigned by its own status bit. -/
theorem countAssigned_append (ts : List (String × Task)) (x : String × Task) :
    countAssigned (ts ++ [x]) =
      countAssigned ts + (if x.2.status == "assigned" then 1 else 0) := by
  simp [countAssigned, List.filter_append, List.filter_cons]
  split <;> simp

/-! ## Helper lemmas: reachable session states -/

/-- The session level is always None or one of the three valid levels. -/
theorem reachable_level {s : AppState} (h : Reachable s) :
    s.user_profile.level = none
    ∨ s.user_profile.level = some "Beginner"
    ∨ s.user_profile.level = some "Intermediate"
    ∨ s.user_profile.level = some "Advanced" := by
  induction h with
  | init => left; rfl
  | step_set_level llm level h ih =>
    simp only [set_level]
    split
    · rename_i hv
      simp only [Bool.or_eq_true, beq_iff_eq] at hv
      right
      rcases hv with (rfl | rfl) | rfl
      · left; rfl
      · right; left; rfl
      · right; right; rfl
    · exact ih
  | step_process transcription llm h ih =>
    simpa [process_audio] using ih

/-- Invariant I3: the transcription audit list always equals the user-turn
texts of the dialogue, in order. -/
theorem reachable_userTexts {s : AppState} (h : Reachable s) :
    userTexts s.conversation_history = s.user_profile.transcriptions := by
  induction h with
  | init => rfl
  | step_set_level llm level h ih =>
    simp only [set_level]
    split
    · simp [userTexts]
    · exact ih
  | step_process transcription llm h ih =>
    simp only [process_audio, userTexts, List.filter_append, List.map_append] at ih ⊢
    simp [ih]

/-- Invariant I1: every reachable task dict has at most one assigned task. -/
theorem reachable_countAssigned {s : AppState} (h : Reachable s) :
    countAssigned s.user_profile.task_responses ≤ 1 := by
  induction h with
  | init => simp [initial_state, countAssigned]
  | step_set_level llm level h ih =>
    simp only [set_level]
    split
    · simp [countAssigned]
    · exact ih
  | step_process transcription llm h ih =>
    rename_i s'
    simp only [process_audio]
    have h0 := cfa_countAssigned transcription s'.user_profile.task_responses ih
    split
    · rw [countAssigned_append]
      simp [h0]
    · simp [h0]

/-- Invariant I2: in every reachable state the task keys, in creation
order, are exactly task_1 ... task_n. -/
theorem reachable_keys {s : AppState} (h : Reachable s) :
    s.user_profile.task_responses.map Prod.fst =
      (List.range s.user_profile.task_responses.length).map
        (fun i => "task_" ++ toString (i + 1)) := by
  induction h with
  | init => rfl
  | step_set_level llm level h ih =>
    simp only [set_level]
    split
    · rfl
    · exact ih
  | step_process transcription llm h ih =>
    rename_i s'
    simp only [process_audio]
    have hmap := cfa_map_fst transcription s'.user_profile.task_responses
    have hlen := cfa_length transcription s'.user_profile.task_responses
    split
    · rw [List.map_append, hmap]
      simp only [List.length_append, hlen, List.map_cons, List.map_nil, List.length_cons,
        List.length_nil]
      rw [ih, List.range_succ, List.map_append]
      simp [hlen]
    · rw [hmap, hlen]
      exact ih

/-! ## Claim theorems -/

/-- C10: when set_level is called with a level outside
Beginner/Intermediate/Advanced it returns the Invalid level error and
leaves the conversation history and the session profile completely
unchanged; the reset happens only after validation. -/
theorem claim_C10 (llm : String → List Turn → String) (level : String) (s : AppState)
    (h : level ≠ "Beginner" ∧ level ≠ "Intermediate" ∧ level ≠ "Advanced") :
    (set_level llm level s).1 = Except.error "Invalid level"
    ∧ (set_level llm level s).2 = s := by
  obtain ⟨h1, h2, h3⟩ := h
  rw [set_level, if_neg (by simp [h1, h2, h3])]
  exact ⟨rfl, rfl⟩

/-- Witness for C10 at the invalid level Expert and the initial state. -/
theorem claim_C10_witness :
    (set_level (fun _ _ => "hi") "Expert" initial_state).1 = Except.error "Invalid level"
    ∧ (set_level (fun _ _ => "hi") "Expert" initial_state).2 = initial_state :=
  claim_C10 (fun _ _ => "hi") "Expert" initial_state (by decide)

/-- C4: in every state reachable by any sequence of selectLevel and
submitUtterance operations, at most one task record has status assigned. -/
theorem claim_C4 (s : AppState) (h : Reachable s) :
    countAssigned s.user_profile.task_responses ≤ 1 :=
  reachable_countAssigned h

/-- Witness for C4 on a reachable state that actually holds a task:
select Beginner, then one utterance whose responder output embeds a task. -/
theorem claim_C4_witness :
    countAssigned (process_audio "hello" (fun _ _ => "ok TASK: talk")
      (set_level (fun _ _ => "hi") "Beginner" initial_state).2).1.user_profile.task_responses ≤ 1 :=
  claim_C4 _ (Reachable.step_process "hello" (fun _ _ => "ok TASK: talk")
    (Reachable.step_set_level (fun _ _ => "hi") "Beginner" Reachable.init))

/-- C5: in every reachable state the task keys, in creation order, are
exactly task_1 ... task_n; hence the numeric identifiers issued by
successive creations within a session are 1, 2, ..., strictly increasing,
starting at 1 (when any task exists) and never reused. -/
theorem claim_C5 (s : AppState) (h : Reachable s) :
    s.user_profile.task_responses.map Prod.fst =
      (List.range s.user_profile.task_responses.length).map
        (fun i => "task_" ++ toString (i + 1))
    ∧ List.Pairwise (fun a b => a < b)
        ((List.range s.user_profile.task_responses.length).map (fun i => i + 1))
    ∧ ((List.range s.user_profile.task_responses.length).map (fun i => i + 1)).Nodup
    ∧ (s.user_profile.task_responses ≠ [] →
        ((List.range s.user_profile.task_responses.length).map (fun i => i + 1)).head? = some 1) := by
  refine ⟨reachable_keys h, ?_, ?_, ?_⟩
  · exact List.Pairwise.map _ (fun a b hab => Nat.add_lt_add_right hab 1)
      (List.pairwise_lt_range _)
  · exact List.Pairwise.imp (fun hab => Nat.ne_of_lt hab)
      (List.Pairwise.map _ (fun a b hab => Nat.add_lt_add_right hab 1)
        (List.pairwise_lt_range _))
  · intro hne
    obtain ⟨m, hm⟩ : ∃ m, s.user_profile.task_responses.length = m + 1 := by
      have := List.length_pos.mpr hne
      exact ⟨s.user_profile.task_responses.length - 1, by omega⟩
    rw [hm, List.range_succ_eq_map]
    simp

/-- Witness for C5 on a reachable state holding one created task. -/
theorem claim_C5_witness :
    (process_audio "hello" (fun _ _ => "ok TASK: chat")
      (set_level (fun _ _ => "hi") "Beginner" initial_state).2).1.user_profile.task_responses.map Prod.fst =
      (List.range (process_audio "hello" (fun _ _ => "ok TASK: chat")
        (set_level (fun _ _ => "hi") "Beginner" initial_state).2).1.user_profile.task_responses.length).map
        (fun i => "task_" ++ toString (i + 1)) :=
  (claim_C5 _ (Reachable.step_process "hello" (fun _ _ => "ok TASK: chat")
    (Reachable.step_set_level (fun _ _ => "hi") "Beginner" Reachable.init))).1

/-- C6: for every attempt-outcome behaviour of the Groq call, the wrapper
makes up to 3 attempts, sleeping 1 second then 2 seconds between them; if
all three raise it returns the fixed apologetic fallback string, and a
success at attempt i returns that text after the sleeps 2^0 ... 2^(i-1);
in every case the caller receives plain text, never a raised failure. -/
theorem claim_C6 (attemptOutcome : Nat → Except String String) :
    ((∀ i, i < 3 → ∃ e, attemptOutcome i = Except.error e) →
        get_llm_response attemptOutcome = (fallback_response, [1, 2]))
    ∧ (∀ i t, i < 3 → (∀ j, j < i → ∃ e, attemptOutcome j = Except.error e) →
        attemptOutcome i = Except.ok t →
        get_llm_response attemptOutcome = (t, (List.range i).map (fun j => 2 ^ j))) := by
  constructor
  · intro hall
    obtain ⟨e0, h0⟩ := hall 0 (by omega)
    obtain ⟨e1, h1⟩ := hall 1 (by omega)
    obtain ⟨e2, h2⟩ := hall 2 (by omega)
    simp [get_llm_response, run_attempts, h0, h1, h2]
  · intro i t hi hprev hok
    interval_cases i
    · simp [get_llm_response, run_attempts, hok]
    · obtain ⟨e0, h0⟩ := hprev 0 (by omega)
      simp [get_llm_response, run_attempts, h0, hok, List.range_succ]
    · obtain ⟨e0, h0⟩ := hprev 0 (by omega)
      obtain ⟨e1, h1⟩ := hprev 1 (by omega)
      simp [get_llm_response, run_attempts, h0, h1, hok, List.range_succ]

/-- Witness for C6: a call whose every attempt raises returns the fallback
after sleeping 1 second and then 2 seconds. -/
theorem claim_C6_witness :
    get_llm_response (fun _ => Except.error "boom") = (fallback_response, [1, 2]) :=
  (claim_C6 (fun _ => Except.error "boom")).1 (fun _ _ => ⟨"boom", rfl⟩)

/-- Substring containment is transitive. -/
theorem pyContains_trans {x y z : List Char}
    (hxy : pyContains x y = true) (hyz : pyContains y z = true) :
    pyContains x z = true := by
  rw [pyContains_iff] at hxy hyz ⊢
  obtain ⟨a, b, rfl⟩ := hxy
  obtain ⟨c, d, rfl⟩ := hyz
  exact ⟨c ++ a, b ++ d, by simp [List.append_assoc]⟩

/-- The directive itself contains the sentinel. -/
theorem sentinel_in_directive :
    pyContains sentinel assign_task_directive.data = true := by decide

/-- C2: with completedTaskJustNow false, the composed prompt contains the
task-injection directive exactly when the dialogue already has at least 4
turns and fewer than 2 tasks were ever created (the dict only ever grows,
so its size is the lifetime count of tasks assigned in the session). -/
theorem claim_C2 (level : String) (hist : List Turn) (tasks : List (String × Task))
    (hlevel : level = "Beginner" ∨ level = "Intermediate" ∨ level = "Advanced") :
    (pyContains assign_task_directive.data
        (generate_system_prompt level false hist tasks).data = true)
      ↔ (4 ≤ hist.length ∧ tasks.length < 2) := by
  rw [generate_system_prompt, if_neg (by simp)]
  by_cases hc : 4 ≤ hist.length ∧ tasks.length < 2
  · have hb : (hist.length ≥ 4 && tasks.length < 2) = true := by
      simp only [Bool.and_eq_true, decide_eq_true_eq]
      exact ⟨hc.1, hc.2⟩
    rw [hb]
    simp only [if_true]
    constructor
    · intro _
      exact hc
    · intro _
      rw [pyContains_iff]
      exact ⟨(base_prompt_pre level).data, base_prompt_post.data,
        by simp [List.append_assoc]⟩
  · have hb : (hist.length ≥ 4 && tasks.length < 2) = false := by
      simp only [Bool.and_eq_false_iff, decide_eq_false_iff_not]
      omega
    rw [hb]
    simp only [if_false]
    constructor
    · intro hcon
      exfalso
      have hsent : pyContains sentinel
          (base_prompt_pre level ++ "" ++ base_prompt_post).data = true :=
        pyContains_trans sentinel_in_directive hcon
      rcases hlevel with rfl | rfl | rfl
      · exact absurd hsent (by decide)
      · exact absurd hsent (by decide)
      · exact absurd hsent (by decide)
    · intro hc2
      exact absurd hc2 hc

/-- Witness for C2: at Beginner level with a 4-turn dialogue and no tasks
the composed prompt contains the directive. -/
theorem claim_C2_witness :
    pyContains assign_task_directive.data
      (generate_system_prompt "Beginner" false
        (List.replicate 4 { role := "user", content := "x" }) []).data = true :=
  (claim_C2 "Beginner" (List.replicate 4 { role := "user", content := "x" }) []
    (Or.inl rfl)).mpr (by simp)

/-- The feedback prompt contains no sentinel, for any of the four level
renderings a reachable session can produce. -/
theorem feedback_prompt_no_sentinel {s : AppState} (hreach : Reachable s) :
    pyContains sentinel (task_feedback_prompt (levelStr s.user_profile.level)).data = false := by
  rcases reachable_level hreach with h | h | h | h <;> rw [h] <;> decide

/-- C3: on an incoming utterance, if some task is assigned then the router
completes the first assigned task, storing the utterance as its response,
reports a task completion, and the system prompt composed for the next
assistant turn is the encouraging-feedback variant, which never contains
the task-injection directive regardless of turn count and task count; if
no task is assigned the router reports no task completion. -/
theorem claim_C3 (s : AppState) (transcription : String)
    (llm : String → List Turn → String) (hreach : Reachable s) :
    ((∃ p ∈ s.user_profile.task_responses, p.2.status = "assigned") →
      (process_audio transcription llm s).2.is_task_response = true
      ∧ (∃ pre k t post,
          s.user_profile.task_responses = pre ++ (k, t) :: post
          ∧ (∀ q ∈ pre, q.2.status ≠ "assigned")
          ∧ t.status = "assigned"
          ∧ (k, { description := t.description, status := "completed",
                  response := some transcription })
              ∈ (process_audio transcription llm s).1.user_profile.task_responses)
      ∧ (process_audio transcription llm s).2.system_prompt =
          task_feedback_prompt (levelStr s.user_profile.level)
      ∧ pyContains assign_task_directive.data
          (process_audio transcription llm s).2.system_prompt.data = false)
    ∧ ((¬ ∃ p ∈ s.user_profile.task_responses, p.2.status = "assigned") →
        (process_audio transcription llm s).2.is_task_response = false) := by
  constructor
  · intro hex
    obtain ⟨pre, k, t, post, hts, hpre, ht, hres, hflag⟩ :=
      cfa_found transcription s.user_profile.task_responses hex
    have hprompt : (process_audio transcription llm s).2.system_prompt =
        task_feedback_prompt (levelStr s.user_profile.level) := by
      simp only [process_audio]
      rw [hflag, generate_system_prompt, if_pos rfl]
    refine ⟨?_, ⟨pre, k, t, post, hts, hpre, ht, ?_⟩, hprompt, ?_⟩
    · simp only [process_audio]
      exact hflag
    · simp only [process_audio]
      split
      · exact List.mem_append_left _
          (by rw [hres]; exact List.mem_append_right _ (List.mem_cons_self _ _))
      · rw [hres]
        exact List.mem_append_right _ (List.mem_cons_self _ _)
    · rw [hprompt]
      cases h2 : pyContains assign_task_directive.data
          (task_feedback_prompt (levelStr s.user_profile.level)).data with
      | false => rfl
      | true =>
        have hs := pyContains_trans sentinel_in_directive h2
        rw [feedback_prompt_no_sentinel hreach] at hs
        exact absurd hs (by simp)
  · intro hnone
    have hall : ∀ p ∈ s.user_profile.task_responses, p.2.status ≠ "assigned" := by
      intro p hp hstat
      exact hnone ⟨p, hp, hstat⟩
    simp only [process_audio]
    rw [cfa_none transcription _ hall]

/-- Witness for C3: in a reachable session holding one assigned task, the
next utterance is routed as a task completion. -/
theorem claim_C3_witness :
    (process_audio "done" (fun _ _ => "good")
      (process_audio "hi" (fun _ _ => "ok TASK: talk")
        (set_level (fun _ _ => "hello") "Beginner" initial_state).2).1).2.is_task_response = true :=
  ((claim_C3 (process_audio "hi" (fun _ _ => "ok TASK: talk")
      (set_level (fun _ _ => "hello") "Beginner" initial_state).2).1 "done"
      (fun _ _ => "good")
      (Reachable.step_process "hi" (fun _ _ => "ok TASK: talk")
        (Reachable.step_set_level (fun _ _ => "hello") "Beginner" Reachable.init))).1
    (by decide)).1

/-- C7: on reachable sessions the evaluator signals the recoverable
"nothing to evaluate" error exactly when the session has no user turns,
and otherwise returns a report carrying the level, word count, average
words per turn, vocabulary richness, common mistakes and the delegated
narrative. -/
theorem claim_C7 (llm : String → String) (s : AppState) (hreach : Reachable s) :
    ((evaluate_conversation llm s.user_profile s.conversation_history =
        Except.error "No speech detected to evaluate")
      ↔ userTexts s.conversation_history = [])
    ∧ (userTexts s.conversation_history ≠ [] →
        ∃ r : Report,
          evaluate_conversation llm s.user_profile s.conversation_history = Except.ok r
          ∧ r.level = s.user_profile.level
          ∧ r.word_count =
              count_words (String.intercalate " " (userTexts s.conversation_history))
          ∧ r.avg_words_per_message =
              pyRound1 ((count_words (String.intercalate " " (userTexts s.conversation_history)) : ℚ)
                / (userTexts s.conversation_history).length)
          ∧ r.vocabulary_richness =
              pyRound1 ((if 0 < count_words (String.intercalate " " (userTexts s.conversation_history))
                then (count_unique_words (String.intercalate " " (userTexts s.conversation_history)) : ℚ)
                  / count_words (String.intercalate " " (userTexts s.conversation_history))
                else 0) * 100)
          ∧ r.common_mistakes =
              extract_common_mistakes pySetList
                (String.intercalate " " (userTexts s.conversation_history))
          ∧ r.detailed_evaluation =
              llm (evaluation_prompt (levelStr s.user_profile.level)
                (userTexts s.conversation_history))) := by
  have htr := reachable_userTexts hreach
  by_cases hemp : userTexts s.conversation_history = []
  · have hguard : s.user_profile.transcriptions.isEmpty = true := by
      rw [← htr, hemp]
      rfl
    constructor
    · rw [evaluate_conversation, if_pos (by rw [hguard])]
      simp [hemp]
    · intro hne
      exact absurd hemp hne
  · have hguard : s.user_profile.transcriptions.isEmpty = false := by
      rw [← htr]
      simpa [List.isEmpty_iff] using hemp
    rw [evaluate_conversation, if_neg (by rw [hguard]; simp)]
    constructor
    · simp [hemp]
    · intro _
      have hmsgs : ((s.conversation_history.filter (fun msg => msg.role == "user")).map
          (fun msg => msg.content)).isEmpty = false := by
        simpa [userTexts, List.isEmpty_iff] using hemp
      refine ⟨_, rfl, rfl, rfl, ?_, rfl, rfl, rfl⟩
      rw [if_neg (by rw [hmsgs]; simp)]
      rfl

/-- Witness for C7 on the empty-transcript side: right after selecting a
level, evaluation signals the nothing-to-evaluate error. -/
theorem claim_C7_witness :
    evaluate_conversation (fun _ => "eval")
        (set_level (fun _ _ => "Hi") "Beginner" initial_state).2.user_profile
        (set_level (fun _ _ => "Hi") "Beginner" initial_state).2.conversation_history =
      Except.error "No speech detected to evaluate" :=
  (claim_C7 (fun _ => "eval") (set_level (fun _ _ => "Hi") "Beginner" initial_state).2
    (Reachable.step_set_level (fun _ _ => "Hi") "Beginner" Reachable.init)).1.mpr
    (by decide)

/-- C8: on every reachable session with at least one user turn the
reported vocabulary richness equals the spec formula (distinct
case-insensitive tokens over word count times 100, rounded to 1 decimal,
0 when the word count is 0); in particular the formula yields 66.7 on the
single user text "cat cat dog". -/
theorem claim_C8 :
    (∀ (llm : String → String) (s : AppState), Reachable s →
      userTexts s.conversation_history ≠ [] →
      ∃ r : Report,
        evaluate_conversation llm s.user_profile s.conversation_history = Except.ok r
        ∧ r.vocabulary_richness = vocabulary_richness_spec (userTexts s.conversation_history))
    ∧ vocabulary_richness_spec ["cat cat dog"] = 667 / 10 := by
  constructor
  · intro llm s hreach hemp
    have htr := reachable_userTexts hreach
    have hguard : s.user_profile.transcriptions.isEmpty = false := by
      rw [← htr]
      simpa [List.isEmpty_iff] using hemp
    rw [evaluate_conversation, if_neg (by rw [hguard]; simp)]
    refine ⟨_, rfl, ?_⟩
    simp only [vocabulary_richness_spec]
    by_cases hwc : (wordRuns ((String.intercalate " "
        (userTexts s.conversation_history)).data.map Char.toLower)).length = 0
    · rw [if_pos hwc]
      have hcw : count_words (String.intercalate " "
          ((s.conversation_history.filter (fun msg => msg.role == "user")).map
            (fun msg => msg.content))) = 0 := hwc
      rw [if_neg (by rw [hcw]; simp)]
      rw [pyRound1]
      norm_num
    · rw [if_neg hwc]
      have hcw : 0 < count_words (String.intercalate " "
          ((s.conversation_history.filter (fun msg => msg.role == "user")).map
            (fun msg => msg.content))) := Nat.pos_of_ne_zero hwc
      rw [if_pos (by exact_mod_cast hcw)]
      rfl
  · simp only [vocabulary_richness_spec]
    rw [show wordRuns ((String.intercalate " " ["cat cat dog"]).data.map Char.toLower) =
      ["cat".data, "cat".data, "dog".data] from by decide]
    rw [if_neg (by decide)]
    rw [show (["cat".data, "cat".data, "dog".data] : List (List Char)).dedup.length = 2 from by decide]
    rw [show (["cat".data, "cat".data, "dog".data] : List (List Char)).length = 3 from by decide]
    rw [pyRound1]
    norm_num [Int.floor_eq_iff]

/-- Witness for C8: a reachable session whose single user turn is
"cat cat dog" reports vocabulary richness 66.7. -/
theorem claim_C8_witness :
    ∃ r : Report,
      evaluate_conversation (fun _ => "eval")
          (process_audio "cat cat dog" (fun _ _ => "Nice")
            (set_level (fun _ _ => "Hi") "Beginner" initial_state).2).1.user_profile
          (process_audio "cat cat dog" (fun _ _ => "Nice")
            (set_level (fun _ _ => "Hi") "Beginner" initial_state).2).1.conversation_history =
        Except.ok r
      ∧ r.vocabulary_richness = 667 / 10 := by
  obtain ⟨r, hok, hval⟩ := claim_C8.1 (fun _ => "eval")
    (process_audio "cat cat dog" (fun _ _ => "Nice")
      (set_level (fun _ _ => "Hi") "Beginner" initial_state).2).1
    (Reachable.step_process "cat cat dog" (fun _ _ => "Nice")
      (Reachable.step_set_level (fun _ _ => "Hi") "Beginner" Reachable.init))
    (by decide)
  refine ⟨r, hok, ?_⟩
  rw [hval, show userTexts (process_audio "cat cat dog" (fun _ _ => "Nice")
      (set_level (fun _ _ => "Hi") "Beginner" initial_state).2).1.conversation_history =
    ["cat cat dog"] from by decide]
  exact claim_C8.2

/-- C1 (amended): when the responder output contains the sentinel, the
recorded assistant turn is the trimmed text before the first occurrence,
and the created task (status assigned, response absent, key task_(n+1))
has as description the trimmed text after the first occurrence up to the
next occurrence of the sentinel -- not all the remaining text, as the
original claim stated; when the sentinel is absent the full output is
recorded and no task is created. -/
theorem claim_C1 (s : AppState) (transcription : String)
    (llm : String → List Turn → String) :
    (pyContains sentinel (process_audio transcription llm s).2.llm_response.data = true →
      ∃ a b : List Char,
        (process_audio transcription llm s).2.llm_response.data = a ++ sentinel ++ b
        ∧ (∀ a' b' : List Char,
            (process_audio transcription llm s).2.llm_response.data = a' ++ sentinel ++ b' →
            a.length ≤ a'.length)
        ∧ (process_audio transcription llm s).2.response = String.mk (pyStrip a)
        ∧ (process_audio transcription llm s).1.conversation_history =
            s.conversation_history ++ [{ role := "user", content := transcription }]
              ++ [{ role := "assistant", content := String.mk (pyStrip a) }]
        ∧ (∃ d : List Char,
            (process_audio transcription llm s).1.user_profile.task_responses =
              (completeFirstAssigned transcription s.user_profile.task_responses).1
                ++ [("task_" ++ toString
                      ((completeFirstAssigned transcription s.user_profile.task_responses).1.length + 1),
                     { description := String.mk (pyStrip d), status := "assigned",
                       response := none })]
            ∧ ((¬ ∃ c e : List Char, b = c ++ sentinel ++ e) → d = b)
            ∧ (∀ c : List Char,
                (∃ e, b = c ++ sentinel ++ e) →
                (∀ c' e', b = c' ++ sentinel ++ e' → c.length ≤ c'.length) → d = c)))
    ∧ (pyContains sentinel (process_audio transcription llm s).2.llm_response.data = false →
        (process_audio transcription llm s).2.response =
            (process_audio transcription llm s).2.llm_response
        ∧ (process_audio transcription llm s).1.conversation_history =
            s.conversation_history ++ [{ role := "user", content := transcription }]
              ++ [{ role := "assistant",
                    content := (process_audio transcription llm s).2.llm_response }]
        ∧ (process_audio transcription llm s).1.user_profile.task_responses =
            (completeFirstAssigned transcription s.user_profile.task_responses).1) := by
  have hne : sentinel ≠ ([] : List Char) := by decide
  constructor
  · intro hpc
    simp only [process_audio] at hpc ⊢
    rw [pyContains] at hpc
    obtain ⟨p0, hfs⟩ := Option.isSome_iff_exists.mp hpc
    obtain ⟨a0, b0⟩ := p0
    refine ⟨a0, b0, findSplit_eq_append hfs, findSplit_min hfs, ?_⟩
    rw [process_response, if_pos (by rw [pyContains, hfs]; rfl)]
    rw [pySplit_cons hne hfs]
    cases hfs2 : findSplit sentinel b0 with
    | some p1 =>
      obtain ⟨c0, d0⟩ := p1
      rw [pySplit_cons hne hfs2]
      refine ⟨rfl, rfl, c0, rfl, ?_, ?_⟩
      · intro hn
        exact absurd ⟨c0, d0, findSplit_eq_append hfs2⟩ hn
      · intro c hce hmin
        obtain ⟨e, he⟩ := hce
        have h1 : c0.length ≤ c.length := findSplit_min hfs2 c e he
        have h2 : c.length ≤ c0.length := hmin c0 d0 (findSplit_eq_append hfs2)
        have heq : c0 ++ (sentinel ++ d0) = c ++ (sentinel ++ e) := by
          have := (findSplit_eq_append hfs2).symm.trans he
          simpa [List.append_assoc] using this
        exact (List.append_inj heq (le_antisymm h1 h2)).1
    | none =>
      rw [pySplit_single hfs2]
      refine ⟨rfl, rfl, b0, rfl, fun _ => rfl, ?_⟩
      intro c hce _
      obtain ⟨e, he⟩ := hce
      exact absurd he (findSplit_none hfs2 c e)
  · intro hpc
    simp only [process_audio] at hpc ⊢
    rw [process_response, if_neg (by rw [hpc]; simp)]
    exact ⟨rfl, rfl, rfl⟩

/-- Counterexample to C1 as stated: on responder output containing the
sentinel twice, the text after the first occurrence is "B TASK: C"
(trimmed), but the code records the description "B" -- only the segment up
to the next occurrence. -/
theorem claim_C1_counterexample :
    "A TASK: B TASK: C".data = "A ".data ++ sentinel ++ " B TASK: C".data
    ∧ findSplit sentinel "A TASK: B TASK: C".data = some ("A ".data, " B TASK: C".data)
    ∧ (process_response "A TASK: B TASK: C").2 = some "B"
    ∧ String.mk (pyStrip " B TASK: C".data) = "B TASK: C"
    ∧ ("B" : String) ≠ "B TASK: C" :=
  ⟨by decide, by decide, by decide, by decide, by decide⟩

/-- Witness for C1 at the P7 example output. -/
theorem claim_C1_witness :
    ∃ a b : List Char,
      (process_audio "hi" (fun _ _ => "Great job! TASK: Describe your weekend")
        (set_level (fun _ _ => "Hello") "Beginner" initial_state).2).2.llm_response.data =
          a ++ sentinel ++ b
      ∧ (∀ a' b' : List Char,
          (process_audio "hi" (fun _ _ => "Great job! TASK: Describe your weekend")
            (set_level (fun _ _ => "Hello") "Beginner" initial_state).2).2.llm_response.data =
              a' ++ sentinel ++ b' →
          a.length ≤ a'.length)
      ∧ (process_audio "hi" (fun _ _ => "Great job! TASK: Describe your weekend")
          (set_level (fun _ _ => "Hello") "Beginner" initial_state).2).2.response =
            String.mk (pyStrip a) :=
  have h := (claim_C1 (set_level (fun _ _ => "Hello") "Beginner" initial_state).2 "hi"
    (fun _ _ => "Great job! TASK: Describe your weekend")).1 (by decide)
  ⟨h.choose, h.choose_spec.choose, h.choose_spec.choose_spec.1,
    h.choose_spec.choose_spec.2.1, h.choose_spec.choose_spec.2.2.1⟩

/-- C9 (amended): whenever the gerund pattern matches and at most 3 of the
fixed patterns match in total (so the truncation to 3 cannot drop any
entry), the the-scan-flags-correct-usage description is in the returned
list, for every admissible set-to-list order; so membership in
commonMistakes does not imply an error was present. -/
theorem claim_C9 (setList : List String → List String) (hset : SetListModel setList)
    (text : String)
    (hmatch : re_search_ic gerund_pattern text.data = true)
    (hcount : (mistake_patterns.filter (fun pr => re_search_ic pr.1 text.data)).length ≤ 3) :
    gerund_description ∈ extract_common_mistakes setList text := by
  rw [extract_common_mistakes]
  have hlen : ((mistake_patterns.filter (fun pr => re_search_ic pr.1 text.data)).map
      (fun pr => pr.2)).length ≤ 3 := by
    simpa using hcount
  have hperm := hset ((mistake_patterns.filter (fun pr => re_search_ic pr.1 text.data)).map
      (fun pr => pr.2))
  have hlen2 : (setList ((mistake_patterns.filter (fun pr => re_search_ic pr.1 text.data)).map
      (fun pr => pr.2))).length ≤ 3 := by
    rw [hperm.length_eq]
    exact le_trans (List.Sublist.length_le (List.dedup_sublist _)) hlen
  rw [List.take_of_length_le hlen2]
  rw [hperm.mem_iff, List.mem_dedup]
  have hmem7 : (gerund_pattern, gerund_description) ∈ mistake_patterns :=
    .tail _ (.tail _ (.tail _ (.tail _ (.tail _ (.tail _ (.head _))))))
  exact List.mem_map_of_mem (fun pr : List Piece × String => pr.2)
    (List.mem_filter.mpr ⟨hmem7, by simpa using hmatch⟩)

/-- Counterexample to C9 as stated: on a text matching four patterns, an
admissible order of list(set(...)) drops the gerund entry when the result
is truncated to 3, so containment does not hold for every text. -/
theorem claim_C9_counterexample :
    SetListModel pySetList
    ∧ re_search_ic gerund_pattern
        "I am agree. We made fun. We discuss about it. I look forward to meeting you.".data = true
    ∧ gerund_description ∉
        extract_common_mistakes pySetList
          "I am agree. We made fun. We discuss about it. I look forward to meeting you." :=
  ⟨fun l => List.Perm.refl _, by decide, by decide⟩

/-- Witness for C9 on a text where only the gerund pattern matches. -/
theorem claim_C9_witness :
    gerund_description ∈ extract_common_mistakes pySetList "I look forward to meeting you" :=
  claim_C9 pySetList (fun l => List.Perm.refl _) "I look forward to meeting you"
    (by decide) (by decide)

end EnglishBuddy
